import Mathlib

/-!
# Verification of the NAM trainer backend's run orchestration core

A shallow embedding of `backend/store.py`, `backend/training_worker.py`,
`backend/routes_training.py`, `backend/routes_files.py`, `backend/audio_io.py`
and `backend/main.py`, together with proofs settling the spec's claims about
the run store, the orchestration state machine, the export resolver, audio
repair, latency detection, deletion, cancellation and HTTP routing.

Modelling conventions:
* Python dict-backed run records become a `RunEntry` structure whose fields
  mirror the keys that the code reads and writes; timestamps are rationals.
* Filesystem listings are passed in as explicit data (`ExportsDir`,
  directory-candidate lists, path/audio association lists); the embedded
  functions are translated line by line from the Python they model.
* Python floats are idealised as exact rationals; `int(rate * 0.1)` is
  rendered as `rate / 10` on naturals (exact for the sample rates the
  backend accepts).
-/

namespace NamBackend

/-! ## Strings-and-keys groundwork

`sorted(...)` on paths and the `key=_version_key` maximum in `store.py`
compare strings lexicographically by code point, which is what `String`'s
order in Lean does. -/

/-- Code-point lexicographic order on strings (Python's string order),
phrased on the character lists so that it evaluates. -/
def strLt (a b : String) : Prop := a.data < b.data

instance (a b : String) : Decidable (strLt a b) := by
  unfold strLt; infer_instance

/-- Insert a string into a list that is sorted in ascending lexicographic
order, keeping the order. -/
def insertStr (a : String) : List String → List String
  | [] => [a]
  | b :: t => if strLt a b then a :: b :: t else b :: insertStr a t

/-- Ascending lexicographic sort, mirroring Python's `sorted` on the file
names produced by `glob`. -/
def sortStr : List String → List String
  | [] => []
  | a :: t => insertStr a (sortStr t)

/-- The numeric value of a list of decimal digit characters. -/
def digitsToNat (l : List Char) : ℕ :=
  l.foldl (fun acc c => acc * 10 + (c.toNat - 48)) 0

/-- The maximal run of decimal digits at the end of a name, in order.
Mirrors `re.search(r"(\d+)$", path.name)` in `store.py`. -/
def trailingDigits (s : String) : List Char :=
  (s.data.reverse.takeWhile Char.isDigit).reverse

/-- `store.py` `_version_key`: the sort key `(trailing integer or -1, name)`
used to pick the newest `version_<n>` directory. -/
def version_key (name : String) : ℤ × String :=
  (if trailingDigits name = [] then -1 else (digitsToNat (trailingDigits name) : ℤ), name)

/-- Strict lexicographic order on `(ℤ, String)` sort keys, as Python's tuple
comparison performs it. -/
def keyLt (k₁ k₂ : ℤ × String) : Prop :=
  k₁.1 < k₂.1 ∨ (k₁.1 = k₂.1 ∧ strLt k₁.2 k₂.2)

instance (k₁ k₂ : ℤ × String) : Decidable (keyLt k₁ k₂) := by
  unfold keyLt; infer_instance

theorem keyLt_trans {a b c : ℤ × String} (hab : keyLt a b) (hbc : keyLt b c) : keyLt a c := by
  simp only [keyLt, strLt] at *
  rcases hab with h₁ | ⟨h₁, h₁'⟩ <;> rcases hbc with h₂ | ⟨h₂, h₂'⟩
  · exact Or.inl (lt_trans h₁ h₂)
  · exact Or.inl (h₂ ▸ h₁)
  · exact Or.inl (h₁ ▸ h₂)
  · exact Or.inr ⟨h₁.trans h₂, lt_trans h₁' h₂'⟩

theorem keyLt_of_lt_of_not_lt {a b c : ℤ × String}
    (hab : keyLt a b) (hcb : ¬ keyLt c b) : keyLt a c := by
  simp only [keyLt, strLt] at *
  rcases lt_trichotomy a.1 c.1 with h | h | h
  · exact Or.inl h
  · rcases hab with h₁ | ⟨h₁, h₁'⟩
    · exact absurd (Or.inl (h ▸ h₁)) hcb
    · rcases lt_trichotomy a.2.data c.2.data with h₂ | h₂ | h₂
      · exact Or.inr ⟨h, h₂⟩
      · exact absurd (Or.inr ⟨(h ▸ h₁ : c.1 = b.1), h₂ ▸ h₁'⟩) hcb
      · exact absurd (Or.inr ⟨(h ▸ h₁ : c.1 = b.1), lt_trans h₂ h₁'⟩) hcb
  · rcases hab with h₁ | ⟨h₁, h₁'⟩
    · exact absurd (Or.inl (lt_trans h h₁)) hcb
    · exact absurd (Or.inl (h₁ ▸ h)) hcb

/-! ## The exports area and `latest_exported_model_path` (`store.py`)

An `ExportsDir` is the listing of a run's `exported_models` directory:
its immediate subdirectories (each with the file names inside it) and its
immediate file children.  An absent directory is `Option.none` at the use
sites. -/

/-- Listing of a run's `exported_models` directory. -/
structure ExportsDir where
  subdirs : List (String × List String)
  files : List String
  deriving DecidableEq, Repr

/-- `*.nam` filter, mirroring `glob("*.nam")` (names ending in `.nam`),
phrased on the character lists so that it evaluates. -/
def namFilter (l : List String) : List String :=
  l.filter (fun s => List.isSuffixOf ".nam".data s.data)

/-- First `*.nam` child of a file listing in lexicographic order,
mirroring `sorted(dir.glob("*.nam"))[0]` (`none` when there is none). -/
def firstNam (l : List String) : Option String :=
  (sortStr (namFilter l)).head?

/-- Python's `max(version_dirs, key=_version_key)`: fold keeping the current
best, replacing it only on a strictly larger key (ties keep the earlier
element; keys are distinct anyway because names in a directory are). -/
def maxByVersionKey : (String × List String) → List (String × List String) → String × List String
  | best, [] => best
  | best, d :: t =>
      if keyLt (version_key best.1) (version_key d.1)
      then maxByVersionKey d t
      else maxByVersionKey best t

/-- `store.py` `latest_exported_model_path`: pick the subdirectory of
`exported_models` with the highest `_version_key` and return its first
`*.nam` file; fall back to scanning `exported_models`' immediate children
when there are no subdirectories or the chosen one holds no `*.nam` file;
`none` when the directory is absent or nothing is found. -/
def latest_exported_model_path (ex : Option ExportsDir) : Option String :=
  match ex with
  | none => none
  | some e =>
    match e.subdirs with
    | [] => firstNam e.files
    | d :: ds =>
      let best := maxByVersionKey d ds
      match firstNam best.2 with
      | some f => some (best.1 ++ "/" ++ f)
      | none => firstNam e.files

/-- A name "with a trailing integer" in the spec's sense. -/
def hasTrailingInt (s : String) : Prop := trailingDigits s ≠ []

instance (s : String) : Decidable (hasTrailingInt s) := by
  unfold hasTrailingInt; infer_instance

theorem maxByVersionKey_mem (d : String × List String) (ds : List (String × List String)) :
    maxByVersionKey d ds ∈ d :: ds := by
  induction ds generalizing d with
  | nil => simp [maxByVersionKey]
  | cons e t ih =>
      by_cases h : keyLt (version_key d.1) (version_key e.1)
      · have h' := ih e
        rw [List.mem_cons] at h'
        simp only [maxByVersionKey, if_pos h, List.mem_cons]
        tauto
      · have h' := ih d
        rw [List.mem_cons] at h'
        simp only [maxByVersionKey, if_neg h, List.mem_cons]
        tauto

theorem maxByVersionKey_maximal (d : String × List String) (ds : List (String × List String)) :
    ∀ d' ∈ d :: ds,
      ¬ keyLt (version_key (maxByVersionKey d ds).1) (version_key d'.1) := by
  induction ds generalizing d with
  | nil =>
      intro d' hd'
      simp only [List.mem_singleton] at hd'
      subst hd'
      simp only [maxByVersionKey]
      rintro (h | ⟨_, h⟩)
      · exact absurd h (lt_irrefl _)
      · exact absurd h (lt_irrefl _)
  | cons e t ih =>
      intro d' hd'
      rw [List.mem_cons, List.mem_cons] at hd'
      by_cases h : keyLt (version_key d.1) (version_key e.1)
      · simp only [maxByVersionKey, if_pos h]
        rcases hd' with hd' | hd' | hd'
        · rw [hd']
          intro hc
          exact ih e e (List.mem_cons_self e t) (keyLt_trans hc h)
        · rw [hd']
          exact ih e e (List.mem_cons_self e t)
        · exact ih e d' (List.mem_cons_of_mem e hd')
      · simp only [maxByVersionKey, if_neg h]
        rcases hd' with hd' | hd' | hd'
        · rw [hd']
          exact ih d d (List.mem_cons_self d t)
        · rw [hd']
          intro hc
          exact ih d d (List.mem_cons_self d t) (keyLt_of_lt_of_not_lt hc h)
        · exact ih d d' (List.mem_cons_of_mem d hd')

/-! ## Run records and the orchestration state machine
(`routes_training.py`, `training_worker.py`)

A `RunEntry` mirrors the dict stored in `runs[run_id]` and written to
`run.json`, restricted to the keys the code reads or writes.  Every
transition in `training_worker.py` mutates the in-memory dict and then
calls `persist_run` on the same dict, so one value models both the
in-memory entry and the durable record. -/

/-- The placeholder metrics summary written on completion
(`training_worker.py` lines 137-143). -/
structure Metrics where
  snrDb : ℚ
  rmsError : ℚ
  spectralErrorDb : ℚ
  timeAlignmentErrorSamples : ℤ
  qualityScore : ℚ
  deriving DecidableEq, Repr

/-- `training_worker.py`: all-zero placeholder metrics. -/
def placeholderMetrics : Metrics := ⟨0, 0, 0, 0, 0⟩

/-- A run record as stored in `runs` and in `run.json`. -/
structure RunEntry where
  runId : String
  name : String
  description : Option String
  status : String
  createdAt : Option ℚ
  startedAt : Option ℚ
  updatedAt : Option ℚ
  completedAt : Option ℚ
  metrics : Option Metrics
  modelPath : Option String
  error : Option String
  deriving DecidableEq, Repr

/-- `routes_training.py` `create_training_run` (lines 113-130): the fresh
QUEUED record inserted into `runs` and persisted before the worker starts. -/
def createRun (runId name : String) (description : Option String) (now : ℚ) : RunEntry :=
  { runId := runId
    name := name
    description := description
    status := "QUEUED"
    createdAt := some now
    startedAt := none
    updatedAt := some now
    completedAt := none
    metrics := none
    modelPath := none
    error := none }

/-- `training_worker.py` lines 58-61: the transition to RUNNING. -/
def startRun (e : RunEntry) (t : ℚ) : RunEntry :=
  { e with status := "RUNNING", startedAt := some t, updatedAt := some t }

/-- `training_worker.py` lines 125-131: the artifact scan performed right
after `nam_run` returns.  It looks only at the immediate `*.nam` children of
`exported_models` (no versioned subdirectories). -/
def workerExportScan (ex : Option ExportsDir) : Option String :=
  match ex with
  | none => none
  | some e => firstNam e.files

/-- `training_worker.py` lines 133-144: the transition to COMPLETED, taken
only after `nam_run` returned without raising. -/
def completeRun (e : RunEntry) (t : ℚ) (ex : Option ExportsDir) : RunEntry :=
  { e with
    status := "COMPLETED"
    completedAt := some t
    updatedAt := some t
    modelPath := workerExportScan ex
    metrics := some placeholderMetrics }

/-- `training_worker.py` lines 148-153: the transition to FAILED taken on any
exception.  It sets `status`, `updatedAt` and `error` — and nothing else. -/
def failRun (e : RunEntry) (t : ℚ) (msg : String) : RunEntry :=
  { e with status := "FAILED", updatedAt := some t, error := some msg }

/-- The outcome of the opaque external `nam_run` call: it either returns
(`none`) or raises with a message (`some msg`). -/
def TrainOutcome := Option String

/-- `_run_training_worker`'s effect on the run record: RUNNING at `t₁`, then
COMPLETED or FAILED at `t₂` according to whether `nam_run` raised. -/
def runWorker (e : RunEntry) (t₁ t₂ : ℚ) (outcome : Option String)
    (ex : Option ExportsDir) : RunEntry :=
  match outcome with
  | none => completeRun (startRun e t₁) t₂ ex
  | some msg => failRun (startRun e t₁) t₂ msg

/-- Run records reachable through the create/start/complete/fail lifecycle,
with the status guards that the control flow of `routes_training.py` and
`training_worker.py` guarantees (the worker starts a freshly QUEUED record
and finishes a RUNNING one exactly once). -/
inductive WorkerReach : RunEntry → Prop
  | created (runId name : String) (description : Option String) (now : ℚ) :
      WorkerReach (createRun runId name description now)
  | started (e : RunEntry) (t : ℚ) : WorkerReach e → e.status = "QUEUED" →
      WorkerReach (startRun e t)
  | completed (e : RunEntry) (t : ℚ) (ex : Option ExportsDir) :
      WorkerReach e → e.status = "RUNNING" → WorkerReach (completeRun e t ex)
  | failed (e : RunEntry) (t : ℚ) (msg : String) :
      WorkerReach e → e.status = "RUNNING" → WorkerReach (failRun e t msg)

/-! ## Recovery at startup (`store.py`) -/

/-- `store.py` `_fallback_run_from_directory`: synthesize a minimal record
for a run directory with no `run.json`.  `mtime` is `st_mtime` when `stat`
succeeds, `none` on `OSError`. -/
def fallbackRun (dirName : String) (mtime : Option ℚ) (ex : Option ExportsDir) : RunEntry :=
  let modelPath := latest_exported_model_path ex
  let status := if modelPath.isSome then "COMPLETED" else "UNKNOWN"
  { runId := dirName
    name := dirName
    description := none
    status := status
    createdAt := mtime
    startedAt := mtime
    updatedAt := mtime
    completedAt := if status = "COMPLETED" then mtime else none
    metrics := none
    modelPath := modelPath
    error := none }

/-- One child of the runs root as `load_runs_from_disk` sees it: not a
directory (skipped), a directory with a `run.json` (whose parse may fail),
or a directory without one (with its `stat` mtime and exports listing). -/
inductive DirChild
  | notDir (name : String)
  | withMeta (name : String) (parsed : Option RunEntry)
  | bare (name : String) (mtime : Option ℚ) (ex : Option ExportsDir)

/-- `store.py` `persist_run`: writes the record keyed by its `runId` field,
silently skipping records whose `runId` is falsy. -/
def persistRunEvent (e : RunEntry) : Option (String × RunEntry) :=
  if e.runId = "" then none else some (e.runId, e)

/-- Dict insertion for the in-memory `runs` index (later writes to the same
key override earlier ones; `List.lookup` sees the newest first). -/
def idxInsert (idx : List (String × RunEntry)) (k : String) (v : RunEntry) :
    List (String × RunEntry) :=
  (k, v) :: idx.filter (fun p => ¬ p.1 = k)

/-- The per-child step of `store.py` `load_runs_from_disk`: `none` when the
child is skipped, otherwise the optional `persist_run` write and the
in-memory insertion, keyed by `run_data.get("runId") or child.name`. -/
def loadStep (c : DirChild) : Option (Option (String × RunEntry) × (String × RunEntry)) :=
  match c with
  | .notDir _ => none
  | .withMeta _ none => none
  | .withMeta name (some r) =>
      let rid := if r.runId = "" then name else r.runId
      some (none, (rid, { r with runId := rid }))
  | .bare name mtime ex =>
      let r := fallbackRun name mtime ex
      let rid := if r.runId = "" then name else r.runId
      some (persistRunEvent r, (rid, { r with runId := rid }))

/-- `store.py` `load_runs_from_disk` over the listing of the runs root:
returns the sequence of durable writes performed and the hydrated in-memory
index. -/
def load_runs_from_disk (cs : List DirChild) :
    List (String × RunEntry) × List (String × RunEntry) :=
  cs.foldl
    (fun acc c =>
      match loadStep c with
      | none => acc
      | some (pev, (k, v)) =>
          (match pev with
           | none => acc.1
           | some p => acc.1 ++ [p],
           idxInsert acc.2 k v))
    ([], [])

/-! ## The stop endpoint (`main.py` lines 133-139)

The handler is a stub: it returns `{"status": "stopped", "run_id": run_id}`
and neither reads nor writes the `runs` index (nothing anywhere in the
backend writes a CANCELLED status). -/

/-- `main.py` `stop_training_run`: the index it could have mutated is
returned unchanged alongside the response body. -/
def stop_training_run (idx : List (String × RunEntry)) (runId : String) :
    List (String × RunEntry) × (String × String) :=
  (idx, ("stopped", runId))

/-! ## Run-directory deletion (`store.py` `delete_run_directory`)

The workspace contents are modelled as the list that `run_dir.rglob("*")`
yields: every file and subdirectory with its relative depth (number of path
components below the run directory).  `OSError`s are injected through the
set `fails` of paths whose removal fails. -/

/-- One entry of `run_dir.rglob("*")`: a contained file or subdirectory. -/
structure WsEntry where
  path : String
  depth : ℕ
  deriving DecidableEq, Repr

/-- Insert into a list sorted by depth, descending, stably (Python's
`sorted(..., reverse=True)` keeps the original order of equal keys). -/
def insByDepth (a : WsEntry) : List WsEntry → List WsEntry
  | [] => [a]
  | b :: t => if b.depth < a.depth then a :: b :: t else b :: insByDepth a t

/-- `sorted(run_dir.rglob("*"), key=len(parts), reverse=True)`. -/
def sortByDepthDesc : List WsEntry → List WsEntry
  | [] => []
  | a :: t => insByDepth a (sortByDepthDesc t)

/-- The error message appended on a failed removal. -/
def removalError (p : String) : String := "Failed to remove " ++ p

/-- One iteration of the removal loop: on success append the path to the
removed list, on an injected `OSError` append the message to the errors. -/
def removeStep (fails : List String) (acc : List String × List String) (e : WsEntry) :
    List String × List String :=
  if e.path ∈ fails then (acc.1, acc.2 ++ [removalError e.path])
  else (acc.1 ++ [e.path], acc.2)

/-- `store.py` `delete_run_directory`: walk the workspace deepest paths
first, unlinking files and removing directories, collecting successes and
per-path failures instead of aborting; finally remove the run directory
itself.  When the run directory does not exist, return two empty lists. -/
def delete_run_directory (dirExists : Bool) (entries : List WsEntry)
    (fails : List String) (runDir : String) : List String × List String :=
  if !dirExists then ([], [])
  else
    let acc := (sortByDepthDesc entries).foldl (removeStep fails) ([], [])
    if runDir ∈ fails then (acc.1, acc.2 ++ [removalError runDir])
    else (acc.1 ++ [runDir], acc.2)

/-- The backend's whole run-deletion facility, as far as the code goes: it
is `delete_run_directory` alone.  No code path removes the run's entry from
the in-memory `runs` index (`delete_run_directory` never touches it and it
has no caller that does), so the index is returned unchanged. -/
def deleteRunOp (idx : List (String × RunEntry)) (dirExists : Bool)
    (entries : List WsEntry) (fails : List String) (runDir : String) :
    (List String × List String) × List (String × RunEntry) :=
  (delete_run_directory dirExists entries fails runDir, idx)

/-! ## Audio repair (`audio_io.py` `repair_audio_in_place`) -/

/-- A decoded audio file: sample rate plus channel-major sample data
(`soundfile` returns frame-major; the information is the same and
`data[:, 0]` is the head channel here). -/
structure Audio where
  rate : ℕ
  channels : List (List ℚ)
  deriving DecidableEq, Repr

/-- `np.allclose(..., 0.0, atol=1e-8)`'s absolute tolerance. -/
def repairTol : ℚ := 1 / 100000000

/-- `audio_io.py` `repair_audio_in_place`'s transformation of the decoded
audio: keep only the first channel when multi-channel; when the first 0.1 s
window is non-empty and contains a sample with magnitude above the
tolerance, prepend `int(rate * silence_dur)` exact zeros; rewrite the file
only when something was modified (so an unmodified file stays
byte-identical).  `int(rate * 0.1)` is rendered exactly as `rate / 10`. -/
def repairAudio (a : Audio) (silence_dur : ℚ := 1) : Audio :=
  let mono := a.channels.headD []
  let firstSamples := min (a.rate / 10) mono.length
  if 0 < firstSamples ∧ ¬ (∀ s ∈ mono.take firstSamples, |s| ≤ repairTol) then
    let silenceSamples := (⌊(a.rate : ℚ) * silence_dur⌋).toNat
    { rate := a.rate, channels := [List.replicate silenceSamples 0 ++ mono] }
  else if 1 < a.channels.length then
    { rate := a.rate, channels := [mono] }
  else a

/-! ## The worker's workspace preparation (`training_worker.py` lines 63-78)

Files on disk are an association list from paths to decoded audio; the
newest binding for a path comes first, so `List.lookup` reads the current
content. -/

/-- The uploaded-files / run-workspace filesystem. -/
def FileSys := List (String × Audio)

/-- Write (create or overwrite) a file. -/
def fsWrite (fs : FileSys) (p : String) (a : Audio) : FileSys :=
  (p, a) :: (fs : List (String × Audio)).filter (fun q => ¬ q.1 = p)

/-- `repair_audio_in_place` as a filesystem step: decode the file at `p`,
repair it, write the result back to the same path (a missing or unreadable
file is left alone — the function logs and returns).  When nothing was
modified the written value equals the old one, matching the code's skipped
write. -/
def repair_audio_in_place (fs : FileSys) (p : String) : FileSys :=
  match (fs : List (String × Audio)).lookup p with
  | none => fs
  | some a => fsWrite fs p (repairAudio a)

/-- `shutil.copy2(src, dst)` on a present source. -/
def copy2 (fs : FileSys) (src dst : String) : FileSys :=
  match (fs : List (String × Audio)).lookup src with
  | none => fs
  | some a => fsWrite fs dst a

/-- `_run_training_worker`'s workspace preparation, in the code's order:
repair both ORIGINAL uploaded files in place (lines 64-65), then copy the
input to `run_dir/<original name>` and `run_dir/input.wav` and the output
to `run_dir/output.wav` (lines 71-78). -/
def prepareWorkspace (fs : FileSys) (inPath outPath runDir origName : String) : FileSys :=
  let fs₁ := repair_audio_in_place fs inPath
  let fs₂ := repair_audio_in_place fs₁ outPath
  let fs₃ := copy2 fs₂ inPath (runDir ++ "/" ++ origName)
  let fs₄ := copy2 fs₃ inPath (runDir ++ "/input.wav")
  copy2 fs₄ outPath (runDir ++ "/output.wav")

/-! ## Latency detection (`routes_files.py` `detect_latency`)

Signals are the first channels of the two decoded files, as exact
rationals.  `np.correlate(y, x, mode="full")` on two length-`n` signals is
`c[i] = Σ_j y[j] · x[j + (n-1) - i]` for `i = 0 .. 2n-2` (out-of-range terms
are zero); `np.argmax` returns the first index attaining the maximum. -/

/-- Signal sample at an integer index, zero outside the signal. -/
def getZ (l : List ℚ) (i : ℤ) : ℚ :=
  if 0 ≤ i ∧ i < l.length then l.getD i.toNat 0 else 0

/-- `np.mean`. -/
def mean (l : List ℚ) : ℚ := l.sum / l.length

/-- Mean removal, `x - np.mean(x)`. -/
def demean (l : List ℚ) : List ℚ := l.map (fun s => s - mean l)

/-- Sum of squares: the square of `np.linalg.norm`. -/
def sumSq (l : List ℚ) : ℚ := (l.map (fun s => s * s)).sum

/-- One coefficient of the full cross-correlation of `(y, x)`. -/
def corrAt (y x : List ℚ) (n : ℕ) (i : ℕ) : ℚ :=
  ((List.range n).map (fun j => getZ y j * getZ x ((j : ℤ) + (n - 1 : ℤ) - (i : ℤ)))).sum

/-- `np.correlate(y, x, mode="full")` for two length-`n` signals. -/
def xcorrFull (y x : List ℚ) (n : ℕ) : List ℚ :=
  (List.range (2 * n - 1)).map (corrAt y x n)

/-- First index of the maximum, `np.argmax` (0 on the empty list, which the
code never reaches because decodable inputs are non-empty). -/
def argmaxAux : List ℚ → ℚ → ℕ → ℕ → ℕ
  | [], _, bi, _ => bi
  | a :: t, bv, bi, i => if bv < a then argmaxAux t a i (i + 1) else argmaxAux t bv bi (i + 1)

/-- `np.argmax(np.abs(corr))`. -/
def argmaxAbs (l : List ℚ) : ℕ :=
  match l with
  | [] => 0
  | a :: t => argmaxAux (t.map (fun s => |s|)) |a| 0 1

/-- `np.max(np.abs(corr))`. -/
def maxAbs (l : List ℚ) : ℚ :=
  match l with
  | [] => 0
  | a :: t => t.foldl (fun m s => max m |s|) |a|

/-- What the latency endpoint computes for a pair with matching sample
rates.  The response's `confidence` field is, as a real number,
`max 0 (min 1 (peakAbs / nrm))` where `nrm` is
`Real.sqrt sumSqX * Real.sqrt sumSqY` when that product is non-zero and `1`
otherwise (`norm = (np.linalg.norm(x) * np.linalg.norm(y)) or 1.0`); the
embedding carries the exact rational components `peakAbs`, `sumSqX`,
`sumSqY` that determine it, since the square roots are irrational. -/
structure LatencyResult where
  latencySamples : ℤ
  latencyMs : ℚ
  peakAbs : ℚ
  sumSqX : ℚ
  sumSqY : ℚ
  deriving DecidableEq, Repr

/-- `routes_files.py` lines 126-145: truncate to the common length, remove
each mean, cross-correlate `(y, x)` in full mode, take the first index of
maximum absolute correlation, clamp the lag `argmax - (n-1)` at zero,
convert to milliseconds with the shared rate.  This models the successful
path only, reached when the common length is positive; `detect_latency`
below guards the zero-frame case, where the code raises instead of
computing a result. -/
def detectOk (x₀ y₀ : List ℚ) (sr : ℕ) : LatencyResult :=
  let n := min x₀.length y₀.length
  let x := demean (x₀.take n)
  let y := demean (y₀.take n)
  let corr := xcorrFull y x n
  let maxIdx := argmaxAbs corr
  let lag : ℤ := (maxIdx : ℤ) - ((n : ℤ) - 1)
  let latencySamples : ℤ := max 0 lag
  { latencySamples := latencySamples
    latencyMs := (latencySamples : ℚ) / (sr : ℚ) * 1000
    peakAbs := maxAbs corr
    sumSqX := sumSq x
    sumSqY := sumSq y }

/-- The three ways the latency endpoint can come back: the 400 validation
response, an unhandled exception escaping the handler (HTTP 500), or the
numeric result. -/
inductive DetectOutcome
  | validationError (msg : String)
  | raised (msg : String)
  | ok (r : LatencyResult)
  deriving DecidableEq, Repr

/-- `routes_files.py` `detect_latency` after both files decoded: a 400
validation error when the sample rates differ (before anything is
computed); with matching rates, a zero-frame pair — either decodable file
empty, so the common truncated length is zero — makes
`np.correlate(y, x, mode="full")` raise `ValueError`, which escapes the
handler as an unhandled exception; otherwise the numeric result. -/
def detect_latency (x₀ y₀ : List ℚ) (srx sry : ℕ) : DetectOutcome :=
  if srx ≠ sry then
    .validationError ("Sample rates differ: input=" ++ toString srx ++ ", output=" ++
      toString sry)
  else if min x₀.length y₀.length = 0 then
    .raised "ValueError: v cannot be empty"
  else
    .ok (detectOk x₀ y₀ srx)

/-! ## HTTP routing (`main.py`, `routes_files.py`, `routes_training.py`)

FastAPI (Starlette) dispatches a request to the first registered route
whose path template fully matches; a `{param}` template segment matches one
non-empty path segment.  `main.py` registers its stub handlers before
`app.include_router` appends the files and training routers. -/

/-- The request handlers the backend registers. -/
inductive Handler
  | health
  | stubList
  | stubDetail
  | stubStop
  | filesUpload
  | filesInspect
  | filesDetectLatency
  | storeCreate
  | storeDetail
  | storeList
  | storeNamMetadataGet
  | storeNamMetadataPut
  | storeMetrics
  | storeModel
  deriving DecidableEq, Repr

/-- A path-template segment: a literal or a `{param}` capture. -/
inductive Seg
  | lit (s : String)
  | param
  deriving DecidableEq, Repr

/-- A registered route. -/
structure Route where
  method : String
  pattern : List Seg
  handler : Handler

/-- One template segment against one path segment. -/
def segMatch : Seg → String → Bool
  | .lit s, t => s = t
  | .param, t => t ≠ ""

/-- Full-path template match, segment by segment. -/
def pathMatch : List Seg → List String → Bool
  | [], [] => true
  | p :: ps, s :: ss => segMatch p s && pathMatch ps ss
  | _, _ => false

/-- Whether a request (method, path) fully matches a registered route. -/
def routeMatches (method : String) (path : List String) (r : Route) : Bool :=
  r.method = method && pathMatch r.pattern path

/-- First-match dispatch over the registration-ordered route table. -/
def dispatch (routes : List Route) (method : String) (path : List String) : Option Handler :=
  (routes.find? (routeMatches method path)).map (·.handler)

/-- The application's route table in registration order: `main.py`'s own
routes (lines 31-139), then `files_router`, then `training_router`
(lines 144-145), both under the `/api` prefix. -/
def appRoutes : List Route :=
  [ ⟨"GET", [.lit "health"], .health⟩,
    ⟨"GET", [.lit "api", .lit "training-runs"], .stubList⟩,
    ⟨"GET", [.lit "api", .lit "training-runs", .param], .stubDetail⟩,
    ⟨"POST", [.lit "api", .lit "training-runs", .param, .lit "stop"], .stubStop⟩,
    ⟨"POST", [.lit "api", .lit "files"], .filesUpload⟩,
    ⟨"GET", [.lit "api", .lit "files", .param, .lit "inspect"], .filesInspect⟩,
    ⟨"POST", [.lit "api", .lit "files", .lit "detect-latency"], .filesDetectLatency⟩,
    ⟨"POST", [.lit "api", .lit "training-runs"], .storeCreate⟩,
    ⟨"GET", [.lit "api", .lit "training-runs", .param], .storeDetail⟩,
    ⟨"GET", [.lit "api", .lit "training-runs"], .storeList⟩,
    ⟨"GET", [.lit "api", .lit "training-runs", .param, .lit "nam-metadata"], .storeNamMetadataGet⟩,
    ⟨"PUT", [.lit "api", .lit "training-runs", .param, .lit "nam-metadata"], .storeNamMetadataPut⟩,
    ⟨"GET", [.lit "api", .lit "training-runs", .param, .lit "metrics"], .storeMetrics⟩,
    ⟨"GET", [.lit "api", .lit "training-runs", .param, .lit "model"], .storeModel⟩ ]

/-- One epoch row of the stub metrics table. -/
structure StubMetricRow where
  epoch : ℕ
  train_loss : ℚ
  val_loss : ℚ
  error_ratio : ℚ
  deriving DecidableEq, Repr

/-- The hardcoded metrics table of `build_stub_run`. -/
def stubMetrics : List StubMetricRow :=
  [ ⟨1, 50/100, 45/100, 60/100⟩,
    ⟨2, 42/100, 40/100, 55/100⟩,
    ⟨3, 38/100, 36/100, 50/100⟩,
    ⟨4, 34/100, 33/100, 47/100⟩,
    ⟨5, 31/100, 31/100, 44/100⟩ ]

/-- The stub run returned by `main.py` `get_training_run`; `now` models
`datetime.utcnow()` as seconds, timestamps are offsets from it. -/
structure StubRun where
  id : String
  name : String
  status : String
  startedAt : ℚ
  endedAt : ℚ
  totalEpochs : ℕ
  currentEpoch : ℕ
  errorRatio : ℚ
  bestValLoss : ℚ
  device : String
  metrics : List StubMetricRow
  logMessages : List String
  deriving DecidableEq, Repr

/-- `main.py` `build_stub_run`: the stub detail payload for ANY `run_id`;
it consults nothing but its arguments (in particular not the run store). -/
def build_stub_run (now : ℚ) (run_id : String) : StubRun :=
  { id := run_id
    name := "Stub training run " ++ run_id
    status := "COMPLETED"
    startedAt := now - 600
    endedAt := now
    totalEpochs := stubMetrics.length
    currentEpoch := stubMetrics.length
    errorRatio := 44/100
    bestValLoss := 31/100
    device := "cpu"
    metrics := stubMetrics
    logMessages :=
      [ "Training run " ++ run_id ++ " started"
      , "Epoch 1 completed"
      , "Epoch 2 completed"
      , "Epoch 3 completed"
      , "Training finished successfully" ] }

/-- One item of the stub list payload. -/
structure StubListItem where
  id : String
  name : String
  status : String
  startedAt : ℚ
  deriving DecidableEq, Repr

/-- `main.py` `list_training_runs`: the two hardcoded example runs the stub
list endpoint always returns, regardless of the run store. -/
def list_training_runs_stub (now : ℚ) : List StubListItem :=
  [ ⟨"run_example_1", "Recto Snapshot", "COMPLETED", now - 1200⟩,
    ⟨"run_example_2", "Clean Twin", "RUNNING", now - 300⟩ ]

/-! ## Claims about the lifecycle record (C1) -/

/-- A failed run as the worker leaves it: created, started, then failed. -/
def sampleFailedRun : RunEntry :=
  failRun (startRun (createRun "run-a" "run-a" none 0) 1) 2 "boom"

/-- C1, counterexample: the FAILED transition of `_run_training_worker`
(lines 148-153) sets `status`, `updatedAt` and `error` but not
`completedAt`, so a run that fails is stored and persisted with
`status = FAILED` and `completedAt = null`, falsifying
"`completedAt` is non-null iff status ∈ {COMPLETED, FAILED, CANCELLED}". -/
theorem failRun_leaves_completedAt_null :
    sampleFailedRun.status = "FAILED" ∧
    sampleFailedRun.completedAt = none ∧
    ¬ (sampleFailedRun.completedAt ≠ none ↔
        (sampleFailedRun.status = "COMPLETED" ∨ sampleFailedRun.status = "FAILED" ∨
         sampleFailedRun.status = "CANCELLED")) := by
  refine ⟨rfl, rfl, ?_⟩
  intro h
  exact (h.mpr (Or.inr (Or.inl rfl))) rfl

/-- C1, amended: across the worker lifecycle (create → start →
complete/fail), `completedAt` is non-null iff the status is COMPLETED; in
particular the FAILED transition leaves `completedAt` null. -/
theorem workerReach_completedAt_iff_completed (e : RunEntry) (h : WorkerReach e) :
    e.completedAt.isSome ↔ e.status = "COMPLETED" := by
  induction h with
  | created runId name description now => simp [createRun]
  | started e t _ hq ih =>
      have : e.completedAt.isSome = false := by
        by_contra hc
        simp only [Bool.not_eq_false] at hc
        rw [ih.mp hc] at hq
        exact absurd hq (by decide)
      simp [startRun, this]
  | completed e t ex _ _ _ => simp [completeRun]
  | failed e t msg _ hr ih =>
      have : e.completedAt.isSome = false := by
        by_contra hc
        simp only [Bool.not_eq_false] at hc
        rw [ih.mp hc] at hr
        exact absurd hr (by decide)
      simp [failRun, this]

/-- C1, witness: the amended invariant evaluated on a concrete failed run. -/
theorem workerReach_completedAt_iff_completed_witness :
    sampleFailedRun.completedAt.isSome ↔ sampleFailedRun.status = "COMPLETED" :=
  workerReach_completedAt_iff_completed sampleFailedRun
    (WorkerReach.failed _ 2 "boom"
      (WorkerReach.started _ 1 (WorkerReach.created "run-a" "run-a" none 0) rfl) rfl)

/-! ## Claims about the stop endpoint (C7) -/

/-- A one-run in-memory index holding a QUEUED run. -/
def sampleIdx : List (String × RunEntry) := [("r1", createRun "r1" "r1" none 0)]

/-- C7, counterexample: `main.py`'s `stop_training_run` (lines 133-139) is a
stub — it answers `{"status": "stopped", "run_id": run_id}` and leaves the
stored record of a QUEUED run entirely unchanged, so no stop request moves
any record toward a cancelled/stopped status. -/
theorem stop_leaves_record_unchanged :
    (stop_training_run sampleIdx "r1").1 = sampleIdx ∧
    (stop_training_run sampleIdx "r1").2 = ("stopped", "r1") ∧
    ((stop_training_run sampleIdx "r1").1.lookup "r1").map RunEntry.status = some "QUEUED" ∧
    ("QUEUED" : String) ≠ "CANCELLED" := by
  refine ⟨rfl, rfl, rfl, by decide⟩

/-- C7, amended: a stop request returns the "stopped" acknowledgement but
does not modify any stored run record; in particular CANCELLED is not
reachable through it. -/
theorem stop_training_run_is_noop (idx : List (String × RunEntry)) (runId : String)
    (r : RunEntry) (h : idx.lookup runId = some r) :
    (stop_training_run idx runId).1.lookup runId = some r ∧
    (stop_training_run idx runId).1 = idx ∧
    (stop_training_run idx runId).2 = ("stopped", runId) :=
  ⟨h, rfl, rfl⟩

/-- C7, witness: the amended statement on the concrete one-run index. -/
theorem stop_training_run_is_noop_witness :
    (stop_training_run sampleIdx "r1").1.lookup "r1" = some (createRun "r1" "r1" none 0) ∧
    (stop_training_run sampleIdx "r1").1 = sampleIdx ∧
    (stop_training_run sampleIdx "r1").2 = ("stopped", "r1") :=
  stop_training_run_is_noop sampleIdx "r1" (createRun "r1" "r1" none 0) (by decide)

/-! ## Claims about the COMPLETED transition (C3) -/

/-- An exports area whose only artifact sits inside `version_1/`. -/
def exVersionedOnly : Option ExportsDir := some ⟨[("version_1", ["a.nam"])], []⟩

/-- C3, counterexample: when the trainer writes its artifact under the
versioned `exported_models/version_1/` layout, the artifact is discoverable
(the Export Resolver finds it), yet the COMPLETED transition of
`_run_training_worker` (lines 125-136) caches `modelPath = None`, because
its scan looks only at the immediate children of `exported_models`. -/
theorem completed_run_misses_versioned_artifact :
    latest_exported_model_path exVersionedOnly = some "version_1/a.nam" ∧
    (runWorker (createRun "r1" "r1" none 0) 1 2 none exVersionedOnly).status = "COMPLETED" ∧
    (runWorker (createRun "r1" "r1" none 0) 1 2 none exVersionedOnly).modelPath = none := by
  exact ⟨by decide, rfl, by decide⟩

/-- C3, amended: a run enters COMPLETED exactly when the external training
call returns without error; on that transition `completedAt` is set, the
placeholder metrics summary is recorded, and `modelPath` caches the first
`*.nam` immediate child of `exported_models` when one exists — artifacts
living only under versioned subdirectories are not discovered at this
transition (`modelPath` is left null there); on an exception the run is
FAILED with the error message recorded. -/
theorem runWorker_completion (e : RunEntry) (t₁ t₂ : ℚ) (outcome : Option String)
    (ex : Option ExportsDir) :
    ((runWorker e t₁ t₂ outcome ex).status = "COMPLETED" ↔ outcome = none) ∧
    (runWorker e t₁ t₂ none ex).completedAt = some t₂ ∧
    (runWorker e t₁ t₂ none ex).metrics = some placeholderMetrics ∧
    (runWorker e t₁ t₂ none ex).modelPath = workerExportScan ex ∧
    (∀ d, ex = some d → namFilter d.files = [] →
      (runWorker e t₁ t₂ none ex).modelPath = none) ∧
    (∀ d f, ex = some d → firstNam d.files = some f →
      (runWorker e t₁ t₂ none ex).modelPath = some f) ∧
    (∀ msg, (runWorker e t₁ t₂ (some msg) ex).status = "FAILED" ∧
      (runWorker e t₁ t₂ (some msg) ex).error = some msg) := by
  refine ⟨?_, rfl, rfl, rfl, ?_, ?_, ?_⟩
  · cases outcome with
    | none => simp [runWorker, completeRun, startRun]
    | some msg =>
        simp only [runWorker, failRun, startRun]
        constructor
        · intro hc
          exact absurd hc (by decide)
        · intro hc
          exact absurd hc (by simp)
  · intro d hd hnam
    subst hd
    simp [runWorker, completeRun, startRun, workerExportScan, firstNam, hnam, sortStr]
  · intro d f hd hf
    subst hd
    simp [runWorker, completeRun, startRun, workerExportScan, hf]
  · intro msg
    exact ⟨rfl, rfl⟩

/-- C3, witness: the amended statement on a concrete flat-layout export and
a concrete failure. -/
theorem runWorker_completion_witness :
    (runWorker (createRun "r1" "r1" none 0) 1 2 none (some ⟨[], ["m.nam"]⟩)).modelPath =
      some "m.nam" ∧
    (runWorker (createRun "r1" "r1" none 0) 1 2 none (some ⟨[], ["m.nam"]⟩)).completedAt =
      some 2 ∧
    (runWorker (createRun "r1" "r1" none 0) 1 2 (some "boom")
      (some ⟨[], ["m.nam"]⟩)).status = "FAILED" := by
  have H := runWorker_completion (createRun "r1" "r1" none 0) 1 2 none (some ⟨[], ["m.nam"]⟩)
  exact ⟨H.2.2.2.2.2.1 ⟨[], ["m.nam"]⟩ "m.nam" rfl (by decide), H.2.1,
    (H.2.2.2.2.2.2 "boom").1⟩

/-! ## Claims about startup recovery (C4) -/

/-- C4, confirmed: for a run directory with no durable record, recovery
synthesizes a record whose identifier (and display name) is the directory
name, whose `createdAt`/`startedAt`/`updatedAt` equal the directory's
modification time, whose status is COMPLETED with `modelPath` pointing at
the artifact when the Export Resolver discovers one and UNKNOWN otherwise,
whose `completedAt` is set only when COMPLETED; the synthesized record is
persisted immediately and indexed under the directory name, and records
parsed from `run.json` are keyed by their own identifier field, falling
back to the directory name. -/
theorem recovery_synthesizes_record (name : String) (mtime : Option ℚ)
    (ex : Option ExportsDir) (h : name ≠ "") :
    (fallbackRun name mtime ex).runId = name ∧
    (fallbackRun name mtime ex).name = name ∧
    (fallbackRun name mtime ex).createdAt = mtime ∧
    (fallbackRun name mtime ex).startedAt = mtime ∧
    (fallbackRun name mtime ex).updatedAt = mtime ∧
    (∀ p, latest_exported_model_path ex = some p →
      (fallbackRun name mtime ex).status = "COMPLETED" ∧
      (fallbackRun name mtime ex).modelPath = some p ∧
      (fallbackRun name mtime ex).completedAt = mtime) ∧
    (latest_exported_model_path ex = none →
      (fallbackRun name mtime ex).status = "UNKNOWN" ∧
      (fallbackRun name mtime ex).modelPath = none ∧
      (fallbackRun name mtime ex).completedAt = none) ∧
    ((fallbackRun name mtime ex).completedAt.isSome →
      (fallbackRun name mtime ex).status = "COMPLETED") ∧
    load_runs_from_disk [DirChild.bare name mtime ex] =
      ([(name, fallbackRun name mtime ex)], [(name, fallbackRun name mtime ex)]) ∧
    (∀ r : RunEntry, r.runId ≠ "" →
      loadStep (DirChild.withMeta name (some r)) = some (none, (r.runId, r))) ∧
    (∀ r : RunEntry, r.runId = "" →
      loadStep (DirChild.withMeta name (some r)) =
        some (none, (name, { r with runId := name }))) := by
  refine ⟨rfl, rfl, rfl, rfl, rfl, ?_, ?_, ?_, ?_, ?_, ?_⟩
  · intro p hp
    refine ⟨?_, ?_, ?_⟩ <;> simp [fallbackRun, hp]
  · intro hp
    refine ⟨?_, ?_, ?_⟩ <;> simp [fallbackRun, hp]
  · intro hc
    cases hl : latest_exported_model_path ex with
    | none =>
        exfalso
        rw [show (fallbackRun name mtime ex).completedAt = none by
          simp [fallbackRun, hl]] at hc
        exact absurd hc (by decide)
    | some p => simp [fallbackRun, hl]
  · simp only [load_runs_from_disk, loadStep, persistRunEvent, idxInsert,
      show (fallbackRun name mtime ex).runId = name from rfl, if_neg h,
      List.foldl, List.filter]
    rfl
  · intro r hr
    simp [loadStep, hr]
  · intro r hr
    simp [loadStep, hr]

/-- C4, witness: a directory `run-b` with a versioned export and a known
mtime synthesizes a persisted COMPLETED record. -/
theorem recovery_synthesizes_record_witness :
    (fallbackRun "run-b" (some 5) exVersionedOnly).status = "COMPLETED" ∧
    (fallbackRun "run-b" (some 5) exVersionedOnly).modelPath = some "version_1/a.nam" ∧
    (fallbackRun "run-b" (some 5) exVersionedOnly).completedAt = some 5 ∧
    load_runs_from_disk [DirChild.bare "run-b" (some 5) exVersionedOnly] =
      ([("run-b", fallbackRun "run-b" (some 5) exVersionedOnly)],
       [("run-b", fallbackRun "run-b" (some 5) exVersionedOnly)]) := by
  have H := recovery_synthesizes_record "run-b" (some 5) exVersionedOnly (by decide)
  have Hp := H.2.2.2.2.2.1 "version_1/a.nam" (by decide)
  exact ⟨Hp.1, Hp.2.1, Hp.2.2, H.2.2.2.2.2.2.2.2.1⟩

/-! ## Claims about the Export Resolver (C8) -/

/-- Reflexive code-point order on strings. -/
def strLe (a b : String) : Prop := ¬ strLt b a

theorem strLe_iff {a b : String} : strLe a b ↔ a.data ≤ b.data := not_lt

theorem mem_insertStr {x a : String} {l : List String} :
    x ∈ insertStr a l ↔ x = a ∨ x ∈ l := by
  induction l with
  | nil => simp [insertStr]
  | cons b t ih =>
      by_cases h : strLt a b
      · simp [insertStr, if_pos h]
      · simp only [insertStr, if_neg h, List.mem_cons, ih]
        tauto

theorem sorted_insertStr {a : String} {l : List String}
    (h : List.Sorted strLe l) : List.Sorted strLe (insertStr a l) := by
  induction l with
  | nil => simp [insertStr]
  | cons b t ih =>
      rw [List.sorted_cons] at h
      by_cases hab : strLt a b
      · rw [insertStr, if_pos hab, List.sorted_cons]
        refine ⟨?_, by rw [List.sorted_cons]; exact h⟩
        intro x hx
        rw [List.mem_cons] at hx
        rcases hx with hx | hx
        · rw [hx, strLe_iff]
          exact le_of_lt hab
        · rw [strLe_iff]
          exact le_trans (le_of_lt hab) (strLe_iff.mp (h.1 x hx))
      · rw [insertStr, if_neg hab, List.sorted_cons]
        refine ⟨?_, ih h.2⟩
        intro x hx
        rw [mem_insertStr] at hx
        rcases hx with hx | hx
        · rw [hx, strLe_iff]
          exact le_of_not_lt hab
        · exact h.1 x hx

theorem mem_sortStr {x : String} {l : List String} : x ∈ sortStr l ↔ x ∈ l := by
  induction l with
  | nil => simp [sortStr]
  | cons b t ih => simp only [sortStr, mem_insertStr, List.mem_cons, ih]

theorem sorted_sortStr (l : List String) : List.Sorted strLe (sortStr l) := by
  induction l with
  | nil => simp [sortStr]
  | cons b t ih => exact sorted_insertStr ih

/-- The head of the sorted `*.nam` listing is a `*.nam` child and is
lexicographically least among them. -/
theorem firstNam_spec (l : List String) (f : String) (h : firstNam l = some f) :
    f ∈ namFilter l ∧ ∀ g ∈ namFilter l, ¬ strLt g f := by
  unfold firstNam at h
  cases hs : sortStr (namFilter l) with
  | nil => rw [hs] at h; exact absurd h (by simp)
  | cons b t =>
      rw [hs] at h
      simp only [List.head?_cons, Option.some.injEq] at h
      rw [h] at hs
      constructor
      · rw [← mem_sortStr, hs]
        exact List.mem_cons_self f t
      · intro g hg
        rw [← mem_sortStr, hs, List.mem_cons] at hg
        have hsorted := sorted_sortStr (namFilter l)
        rw [hs, List.sorted_cons] at hsorted
        rcases hg with hg | hg
        · rw [hg]
          exact lt_irrefl _
        · exact hsorted.1 g hg

/-- The exports area of the C8 counterexample: a subdirectory with no
trailing integer holding `z.nam`, plus a flat `c.nam`. -/
def exMixed : ExportsDir := ⟨[("misc", ["z.nam"])], ["c.nam"]⟩

/-- C8, counterexample: `latest_exported_model_path` selects among ALL
subdirectories of `exported_models`, not only the versioned ones.  Here no
subdirectory carries a trailing integer, so by the claim the resolver
should scan the immediate children and return `c.nam`; the code instead
descends into `misc/` and returns `misc/z.nam`. -/
theorem resolver_ignores_versionedness :
    (∀ d ∈ exMixed.subdirs, ¬ hasTrailingInt d.1) ∧
    firstNam exMixed.files = some "c.nam" ∧
    latest_exported_model_path (some exMixed) = some "misc/z.nam" ∧
    (some "misc/z.nam" : Option String) ≠ some "c.nam" := by decide

/-- C8, amended: the resolver treats EVERY subdirectory of the exports area
as a version candidate, ranked by the key `(trailing integer or -1, name)`;
it returns the first `*.nam` file of the maximal candidate in lexicographic
order, and falls back to scanning the exports directory's immediate
children when there are no subdirectories at all or when the selected
subdirectory holds no artifact; it returns "not found" (never an error)
when nothing matches, and the spec's three worked examples hold. -/
theorem resolver_behavior :
    latest_exported_model_path none = none ∧
    (∀ e : ExportsDir, e.subdirs = [] →
      latest_exported_model_path (some e) = firstNam e.files) ∧
    (∀ (e : ExportsDir) d ds, e.subdirs = d :: ds →
      maxByVersionKey d ds ∈ e.subdirs ∧
      (∀ d' ∈ e.subdirs,
        ¬ keyLt (version_key (maxByVersionKey d ds).1) (version_key d'.1)) ∧
      (∀ f, firstNam (maxByVersionKey d ds).2 = some f →
        latest_exported_model_path (some e) =
          some ((maxByVersionKey d ds).1 ++ "/" ++ f)) ∧
      (firstNam (maxByVersionKey d ds).2 = none →
        latest_exported_model_path (some e) = firstNam e.files)) ∧
    (∀ l f, firstNam l = some f → f ∈ namFilter l ∧ ∀ g ∈ namFilter l, ¬ strLt g f) ∧
    latest_exported_model_path
      (some ⟨[("version_1", ["a.nam"]), ("version_2", ["b.nam"])], []⟩) =
      some "version_2/b.nam" ∧
    latest_exported_model_path (some ⟨[], ["c.nam"]⟩) = some "c.nam" ∧
    latest_exported_model_path (some ⟨[], []⟩) = none := by
  refine ⟨rfl, ?_, ?_, firstNam_spec, by decide, by decide, rfl⟩
  · intro e hs
    simp [latest_exported_model_path, hs]
  · intro e d ds hs
    refine ⟨hs ▸ maxByVersionKey_mem d ds, ?_, ?_, ?_⟩
    · intro d' hd'
      exact maxByVersionKey_maximal d ds d' (hs ▸ hd')
    · intro f hf
      simp [latest_exported_model_path, hs, hf]
    · intro hf
      simp [latest_exported_model_path, hs, hf]

/-- C8, witness: the amended characterization on the mixed layout and on
the versioned example. -/
theorem resolver_behavior_witness :
    latest_exported_model_path (some exMixed) = some ("misc" ++ "/" ++ "z.nam") ∧
    ("z.nam" ∈ namFilter ["z.nam"] ∧ ∀ g ∈ namFilter ["z.nam"], ¬ strLt g "z.nam") := by
  have H := resolver_behavior
  refine ⟨?_, ?_⟩
  · exact (H.2.2.1 exMixed ("misc", ["z.nam"]) [] rfl).2.2.1 "z.nam" (by decide)
  · exact H.2.2.2.1 ["z.nam"] "z.nam" (by decide)

/-! ## Claims about run deletion (C6) -/

theorem foldl_removeStep (fails : List String) (l : List WsEntry)
    (acc : List String × List String) :
    l.foldl (removeStep fails) acc =
      (acc.1 ++ (l.filter (fun e => e.path ∉ fails)).map WsEntry.path,
       acc.2 ++ (l.filter (fun e => e.path ∈ fails)).map (fun e => removalError e.path)) := by
  induction l generalizing acc with
  | nil => simp
  | cons e t ih =>
      by_cases h : e.path ∈ fails
      · simp [removeStep, h, ih, List.filter_cons]
      · simp [removeStep, h, ih, List.filter_cons]

theorem insByDepth_perm (a : WsEntry) (l : List WsEntry) :
    (insByDepth a l).Perm (a :: l) := by
  induction l with
  | nil => exact List.Perm.refl _
  | cons b t ih =>
      by_cases h : b.depth < a.depth
      · rw [insByDepth, if_pos h]
      · rw [insByDepth, if_neg h]
        exact (ih.cons b).trans (List.Perm.swap a b t)

theorem sortByDepthDesc_perm (l : List WsEntry) : (sortByDepthDesc l).Perm l := by
  induction l with
  | nil => exact List.Perm.refl _
  | cons a t ih => exact (insByDepth_perm a (sortByDepthDesc t)).trans (ih.cons a)

theorem sorted_insByDepth {a : WsEntry} {l : List WsEntry}
    (h : List.Sorted (fun x y => y.depth ≤ x.depth) l) :
    List.Sorted (fun x y => y.depth ≤ x.depth) (insByDepth a l) := by
  induction l with
  | nil => simp [insByDepth]
  | cons b t ih =>
      rw [List.sorted_cons] at h
      by_cases hab : b.depth < a.depth
      · rw [insByDepth, if_pos hab, List.sorted_cons]
        refine ⟨?_, by rw [List.sorted_cons]; exact h⟩
        intro x hx
        rw [List.mem_cons] at hx
        rcases hx with hx | hx
        · rw [hx]
          exact le_of_lt hab
        · exact le_trans (h.1 x hx) (le_of_lt hab)
      · rw [insByDepth, if_neg hab, List.sorted_cons]
        refine ⟨?_, ih h.2⟩
        intro x hx
        have hx' := (insByDepth_perm a t).mem_iff.mp hx
        rw [List.mem_cons] at hx'
        rcases hx' with hx' | hx'
        · rw [hx']
          exact le_of_not_lt hab
        · exact h.1 x hx'

theorem sorted_sortByDepthDesc (l : List WsEntry) :
    List.Sorted (fun x y => y.depth ≤ x.depth) (sortByDepthDesc l) := by
  induction l with
  | nil => simp [sortByDepthDesc]
  | cons a t ih => exact sorted_insByDepth ih

/-- C6, counterexample: a workspace with `N = 1` file and `M = 0`
subdirectories and no removal failures reports 2 removed paths — the file
AND the run directory itself — not "exactly N+M = 1"; and the in-memory
index still carries the run's entry afterwards, because nothing in the
code removes it. -/
theorem deletion_reports_contents_plus_root :
    deleteRunOp sampleIdx true [⟨"d/f", 1⟩] [] "d" = ((["d/f", "d"], []), sampleIdx) ∧
    ¬ ((["d/f", "d"] : List String).length ≤ 1) ∧
    sampleIdx.lookup "r1" = some (createRun "r1" "r1" none 0) := by decide

/-- C6, amended: deletion walks the workspace deepest paths first,
continues past injected removal failures collecting them as per-path error
messages alongside the removed paths, and reports `N + M + 1` paths in
total (the N files and M subdirectories plus the run directory itself),
removals and errors partitioning them; the in-memory index is untouched —
no code path removes the run's entry. -/
theorem delete_run_directory_spec (entries : List WsEntry) (fails : List String)
    (runDir : String) :
    (delete_run_directory true entries fails runDir).1 =
      ((sortByDepthDesc entries).filter (fun e => e.path ∉ fails)).map WsEntry.path ++
        (if runDir ∈ fails then [] else [runDir]) ∧
    (delete_run_directory true entries fails runDir).2 =
      ((sortByDepthDesc entries).filter (fun e => e.path ∈ fails)).map
          (fun e => removalError e.path) ++
        (if runDir ∈ fails then [removalError runDir] else []) ∧
    (delete_run_directory true entries fails runDir).1.length +
      (delete_run_directory true entries fails runDir).2.length = entries.length + 1 ∧
    (fails = [] →
      (delete_run_directory true entries fails runDir).1.length = entries.length + 1 ∧
      (delete_run_directory true entries fails runDir).2 = []) ∧
    (sortByDepthDesc entries).Perm entries ∧
    List.Sorted (fun x y => y.depth ≤ x.depth) (sortByDepthDesc entries) ∧
    ∀ idx, (deleteRunOp idx true entries fails runDir).2 = idx := by
  have hfold := foldl_removeStep fails (sortByDepthDesc entries) ([], [])
  have hremoved :
      (delete_run_directory true entries fails runDir).1 =
        ((sortByDepthDesc entries).filter (fun e => e.path ∉ fails)).map WsEntry.path ++
          (if runDir ∈ fails then [] else [runDir]) := by
    by_cases h : runDir ∈ fails <;>
      simp [delete_run_directory, hfold, h]
  have herrors :
      (delete_run_directory true entries fails runDir).2 =
        ((sortByDepthDesc entries).filter (fun e => e.path ∈ fails)).map
            (fun e => removalError e.path) ++
          (if runDir ∈ fails then [removalError runDir] else []) := by
    by_cases h : runDir ∈ fails <;>
      simp [delete_run_directory, hfold, h]
  have hsortlen : (sortByDepthDesc entries).length = entries.length :=
    (sortByDepthDesc_perm entries).length_eq
  have hpart :
      ((sortByDepthDesc entries).filter (fun e => e.path ∉ fails)).length +
        ((sortByDepthDesc entries).filter (fun e => e.path ∈ fails)).length =
        entries.length := by
    rw [← hsortlen]
    generalize sortByDepthDesc entries = l
    simp only [decide_not]
    induction l with
    | nil => simp
    | cons e t ih =>
        by_cases h : e.path ∈ fails <;>
          simp [List.filter_cons, h] <;> omega
  simp only [decide_not] at hpart
  refine ⟨hremoved, herrors, ?_, ?_, sortByDepthDesc_perm entries,
    sorted_sortByDepthDesc entries, fun idx => rfl⟩
  · rw [hremoved, herrors]
    by_cases h : runDir ∈ fails <;>
      simp [h, List.length_append, List.length_map] <;> omega
  · intro hf
    subst hf
    rw [hremoved, herrors]
    simp [hsortlen]

/-- C6, witness: the amended statement on a concrete two-level workspace
with one injected failure. -/
theorem delete_run_directory_spec_witness :
    (delete_run_directory true [⟨"d/sub", 1⟩, ⟨"d/sub/f", 2⟩] ["d/sub"] "d").1 =
      ["d/sub/f", "d"] ∧
    (delete_run_directory true [⟨"d/sub", 1⟩, ⟨"d/sub/f", 2⟩] ["d/sub"] "d").2 =
      [removalError "d/sub"] ∧
    (delete_run_directory true [⟨"d/sub", 1⟩, ⟨"d/sub/f", 2⟩] ["d/sub"] "d").1.length +
      (delete_run_directory true [⟨"d/sub", 1⟩, ⟨"d/sub/f", 2⟩] ["d/sub"] "d").2.length = 3 := by
  have H := delete_run_directory_spec [⟨"d/sub", 1⟩, ⟨"d/sub/f", 2⟩] ["d/sub"] "d"
  refine ⟨?_, ?_, H.2.2.1⟩
  · rw [H.1]
    decide
  · rw [H.2.1]
    decide

/-! ## Claims about workspace preparation (C2) -/

theorem lookup_filter_ne {fs : List (String × Audio)} {p q : String} (h : ¬ q = p) :
    (fs.filter (fun e => ¬ e.1 = p)).lookup q = fs.lookup q := by
  induction fs with
  | nil => rfl
  | cons e t ih =>
      obtain ⟨k, v⟩ := e
      by_cases hk : k = p
      · subst hk
        simp only [List.filter_cons, decide_not]
        simp only [decide_not] at ih
        simp [List.lookup_cons, beq_false_of_ne h, ih]
      · by_cases hq : q = k
        · subst hq
          simp [List.filter_cons, hk, List.lookup_cons]
        · simp only [List.filter_cons, decide_not]
          simp only [decide_not] at ih
          simp [hk, List.lookup_cons, beq_false_of_ne hq, ih]

theorem lookup_fsWrite_same (fs : FileSys) (p : String) (a : Audio) :
    (fsWrite fs p a).lookup p = some a := by
  simp [fsWrite, List.lookup_cons]

theorem lookup_fsWrite_ne {fs : FileSys} {p q : String} (a : Audio) (h : ¬ q = p) :
    (fsWrite fs p a).lookup q = (fs : List (String × Audio)).lookup q := by
  simp only [fsWrite, List.lookup_cons, beq_false_of_ne h, cond_false]
  exact lookup_filter_ne h

theorem repair_lookup_same {fs : FileSys} {p : String} {a : Audio}
    (h : (fs : List (String × Audio)).lookup p = some a) :
    ((repair_audio_in_place fs p : FileSys) : List (String × Audio)).lookup p =
      some (repairAudio a) := by
  simp [repair_audio_in_place, h, lookup_fsWrite_same]

theorem repair_lookup_ne {fs : FileSys} {p q : String} (h : ¬ q = p) :
    ((repair_audio_in_place fs p : FileSys) : List (String × Audio)).lookup q =
      (fs : List (String × Audio)).lookup q := by
  unfold repair_audio_in_place
  cases hl : (fs : List (String × Audio)).lookup p with
  | none => rfl
  | some a => exact lookup_fsWrite_ne _ h

theorem copy2_lookup_dst {fs : FileSys} {src dst : String} {a : Audio}
    (h : (fs : List (String × Audio)).lookup src = some a) :
    ((copy2 fs src dst : FileSys) : List (String × Audio)).lookup dst = some a := by
  simp [copy2, h, lookup_fsWrite_same]

theorem copy2_lookup_ne {fs : FileSys} {src dst q : String} (h : ¬ q = dst) :
    ((copy2 fs src dst : FileSys) : List (String × Audio)).lookup q =
      (fs : List (String × Audio)).lookup q := by
  unfold copy2
  cases hl : (fs : List (String × Audio)).lookup src with
  | none => rfl
  | some a => exact lookup_fsWrite_ne _ h

/-- C2, amended: workspace preparation first runs Audio Repair IN PLACE on
the two ORIGINAL uploaded files (outside the run directory), and only then
copies the repaired files into the run directory under the fixed and
original-derived names; the copies are never repaired separately, and the
original uploads are modified exactly as repair modifies them.  Every other
path is untouched. -/
theorem prepareWorkspace_spec (fs : FileSys) (inPath outPath runDir origName : String)
    (aIn aOut : Audio)
    (hin : (fs : List (String × Audio)).lookup inPath = some aIn)
    (hout : (fs : List (String × Audio)).lookup outPath = some aOut)
    (hio : ¬ inPath = outPath)
    (hit₁ : ¬ inPath = runDir ++ "/" ++ origName)
    (hit₂ : ¬ inPath = runDir ++ "/input.wav")
    (hit₃ : ¬ inPath = runDir ++ "/output.wav")
    (hot₁ : ¬ outPath = runDir ++ "/" ++ origName)
    (hot₂ : ¬ outPath = runDir ++ "/input.wav")
    (hot₃ : ¬ outPath = runDir ++ "/output.wav")
    (ht₁₂ : ¬ runDir ++ "/" ++ origName = runDir ++ "/input.wav")
    (ht₁₃ : ¬ runDir ++ "/" ++ origName = runDir ++ "/output.wav")
    (ht₂₃ : ¬ runDir ++ "/input.wav" = runDir ++ "/output.wav") :
    ((prepareWorkspace fs inPath outPath runDir origName : FileSys) :
        List (String × Audio)).lookup inPath = some (repairAudio aIn) ∧
    ((prepareWorkspace fs inPath outPath runDir origName : FileSys) :
        List (String × Audio)).lookup outPath = some (repairAudio aOut) ∧
    ((prepareWorkspace fs inPath outPath runDir origName : FileSys) :
        List (String × Audio)).lookup (runDir ++ "/" ++ origName) =
      some (repairAudio aIn) ∧
    ((prepareWorkspace fs inPath outPath runDir origName : FileSys) :
        List (String × Audio)).lookup (runDir ++ "/input.wav") =
      some (repairAudio aIn) ∧
    ((prepareWorkspace fs inPath outPath runDir origName : FileSys) :
        List (String × Audio)).lookup (runDir ++ "/output.wav") =
      some (repairAudio aOut) ∧
    (∀ q, ¬ q = inPath → ¬ q = outPath → ¬ q = runDir ++ "/" ++ origName →
      ¬ q = runDir ++ "/input.wav" → ¬ q = runDir ++ "/output.wav" →
      ((prepareWorkspace fs inPath outPath runDir origName : FileSys) :
          List (String × Audio)).lookup q = (fs : List (String × Audio)).lookup q) := by
  have hio' : ¬ outPath = inPath := fun hc => hio hc.symm
  -- contents after the two in-place repairs
  have h₁in : ((repair_audio_in_place fs inPath : FileSys) :
      List (String × Audio)).lookup inPath = some (repairAudio aIn) :=
    repair_lookup_same hin
  have h₁out : ((repair_audio_in_place fs inPath : FileSys) :
      List (String × Audio)).lookup outPath = some aOut :=
    (repair_lookup_ne hio').trans hout
  have h₂in : ((repair_audio_in_place (repair_audio_in_place fs inPath) outPath :
      FileSys) : List (String × Audio)).lookup inPath = some (repairAudio aIn) :=
    (repair_lookup_ne hio).trans h₁in
  have h₂out : ((repair_audio_in_place (repair_audio_in_place fs inPath) outPath :
      FileSys) : List (String × Audio)).lookup outPath = some (repairAudio aOut) :=
    repair_lookup_same h₁out
  -- unfold the three copies
  show _ ∧ _ ∧ _ ∧ _ ∧ _ ∧ _
  unfold prepareWorkspace
  set fs₂ := repair_audio_in_place (repair_audio_in_place fs inPath) outPath with hfs₂
  set t₁ := runDir ++ "/" ++ origName
  set t₂ := runDir ++ "/input.wav"
  set t₃ := runDir ++ "/output.wav"
  have h₃in : ((copy2 fs₂ inPath t₁ : FileSys) :
      List (String × Audio)).lookup inPath = some (repairAudio aIn) :=
    (copy2_lookup_ne hit₁).trans h₂in
  have h₃out : ((copy2 fs₂ inPath t₁ : FileSys) :
      List (String × Audio)).lookup outPath = some (repairAudio aOut) :=
    (copy2_lookup_ne hot₁).trans h₂out
  have h₃t₁ : ((copy2 fs₂ inPath t₁ : FileSys) :
      List (String × Audio)).lookup t₁ = some (repairAudio aIn) :=
    copy2_lookup_dst h₂in
  have h₄in : ((copy2 (copy2 fs₂ inPath t₁) inPath t₂ : FileSys) :
      List (String × Audio)).lookup inPath = some (repairAudio aIn) :=
    (copy2_lookup_ne hit₂).trans h₃in
  have h₄out : ((copy2 (copy2 fs₂ inPath t₁) inPath t₂ : FileSys) :
      List (String × Audio)).lookup outPath = some (repairAudio aOut) :=
    (copy2_lookup_ne hot₂).trans h₃out
  have h₄t₁ : ((copy2 (copy2 fs₂ inPath t₁) inPath t₂ : FileSys) :
      List (String × Audio)).lookup t₁ = some (repairAudio aIn) :=
    (copy2_lookup_ne ht₁₂).trans h₃t₁
  have h₄t₂ : ((copy2 (copy2 fs₂ inPath t₁) inPath t₂ : FileSys) :
      List (String × Audio)).lookup t₂ = some (repairAudio aIn) :=
    copy2_lookup_dst h₃in
  refine ⟨(copy2_lookup_ne hit₃).trans h₄in, (copy2_lookup_ne hot₃).trans h₄out,
    (copy2_lookup_ne ht₁₃).trans h₄t₁,
    (copy2_lookup_ne ht₂₃).trans h₄t₂,
    copy2_lookup_dst h₄out, ?_⟩
  intro q hq₁ hq₂ hq₃ hq₄ hq₅
  exact ((copy2_lookup_ne hq₅).trans ((copy2_lookup_ne hq₄).trans
    ((copy2_lookup_ne hq₃).trans ((repair_lookup_ne hq₂).trans
      (repair_lookup_ne hq₁)))))

/-- The uploaded files area of the C2 scenario: a non-silent input and an
already-silent output. -/
def sampleFs : FileSys := [("files/in.wav", ⟨10, [[1]]⟩), ("files/out.wav", ⟨10, [[0]]⟩)]

/-- C2, counterexample: after the worker's workspace preparation, the
ORIGINAL uploaded input file (stored outside the run directory) has been
modified in place — repair prepended a second of silence to it — refuting
"the original uploaded files stored outside the run directory are left
unchanged by the run" (and with it the claimed copy-then-repair order:
repair runs first, on the originals). -/
theorem prepare_mutates_original_upload :
    ((prepareWorkspace sampleFs "files/in.wav" "files/out.wav" "runs/r1" "orig.wav" :
        FileSys) : List (String × Audio)).lookup "files/in.wav" =
      some ⟨10, [List.replicate 10 0 ++ [1]]⟩ ∧
    (sampleFs : List (String × Audio)).lookup "files/in.wav" = some ⟨10, [[1]]⟩ ∧
    some (⟨10, [List.replicate 10 0 ++ [1]]⟩ : Audio) ≠ some (⟨10, [[1]]⟩ : Audio) := by
  have H := prepareWorkspace_spec sampleFs "files/in.wav" "files/out.wav" "runs/r1"
    "orig.wav" ⟨10, [[1]]⟩ ⟨10, [[0]]⟩ (by decide) (by decide) (by decide) (by decide)
    (by decide) (by decide) (by decide) (by decide) (by decide) (by decide) (by decide)
    (by decide)
  refine ⟨?_, by decide, by decide⟩
  rw [H.1]
  norm_num [repairAudio, repairTol]
  decide

/-- C2, witness: the amended description on the concrete two-file upload
area — the repaired output lands under `runs/r1/output.wav` and an
unrelated path is untouched. -/
theorem prepareWorkspace_spec_witness :
    ((prepareWorkspace sampleFs "files/in.wav" "files/out.wav" "runs/r1" "orig.wav" :
        FileSys) : List (String × Audio)).lookup ("runs/r1" ++ "/output.wav") =
      some (repairAudio ⟨10, [[0]]⟩) ∧
    ((prepareWorkspace sampleFs "files/in.wav" "files/out.wav" "runs/r1" "orig.wav" :
        FileSys) : List (String × Audio)).lookup "files/other.wav" =
      (sampleFs : List (String × Audio)).lookup "files/other.wav" := by
  have H := prepareWorkspace_spec sampleFs "files/in.wav" "files/out.wav" "runs/r1"
    "orig.wav" ⟨10, [[1]]⟩ ⟨10, [[0]]⟩ (by decide) (by decide) (by decide) (by decide)
    (by decide) (by decide) (by decide) (by decide) (by decide) (by decide) (by decide)
    (by decide)
  exact ⟨H.2.2.2.2.1, H.2.2.2.2.2 "files/other.wav" (by decide) (by decide) (by decide)
    (by decide) (by decide)⟩

/-! ## Claims about Audio Repair (C9) -/

/-- C9, counterexample: the claim states the silence check backwards.  A
mono file whose first 0.1 s contains a sample ABOVE the tolerance is the
one that grows (`audio_io.py` line 59 prepends silence when the window is
NOT close to zero), and a file whose first 0.1 s is entirely at or below
the tolerance is the one left byte-identical. -/
theorem repair_pads_nonsilent_file :
    repairAudio ⟨10, [[1]]⟩ = ⟨10, [List.replicate 10 0 ++ [1]]⟩ ∧
    repairAudio ⟨10, [[1]]⟩ ≠ ⟨10, [[1]]⟩ ∧
    repairAudio ⟨10, [[0]]⟩ = ⟨10, [[0]]⟩ ∧
    repairTol < |(1 : ℚ)| ∧ |(0 : ℚ)| ≤ repairTol := by
  refine ⟨?_, ?_, ?_, by norm_num [repairTol], by norm_num [repairTol]⟩
  · norm_num [repairAudio, repairTol]
    decide
  · norm_num [repairAudio, repairTol]
  · norm_num [repairAudio, repairTol]

/-- C9, amended: Audio Repair GROWS a mono file whose first 0.1 s window
contains a sample above the absolute tolerance by exactly
`int(sample_rate * silence_dur)` exact zeros prepended, and leaves a mono
file whose first 0.1 s is entirely at or below the tolerance
byte-identical (the claim had the two conditions swapped). -/
theorem repairAudio_silence_padding (rate : ℕ) (m : List ℚ) (dur : ℚ) :
    ((∃ s ∈ m.take (min (rate / 10) m.length), repairTol < |s|) →
      repairAudio ⟨rate, [m]⟩ dur =
        ⟨rate, [List.replicate (⌊(rate : ℚ) * dur⌋).toNat 0 ++ m]⟩) ∧
    ((∀ s ∈ m.take (min (rate / 10) m.length), |s| ≤ repairTol) →
      repairAudio ⟨rate, [m]⟩ dur = ⟨rate, [m]⟩) := by
  constructor
  · rintro ⟨s, hs, hgt⟩
    have hpos : 0 < min (rate / 10) m.length := by
      rcases Nat.eq_zero_or_pos (min (rate / 10) m.length) with hc | hc
      · rw [hc, List.take_zero] at hs
        exact absurd hs (List.not_mem_nil s)
      · exact hc
    unfold repairAudio
    dsimp only [List.headD]
    rw [if_pos ⟨hpos, fun hall => absurd (hall s hs) (not_le.mpr hgt)⟩]
  · intro hall
    unfold repairAudio
    dsimp only [List.headD]
    rw [if_neg (fun hc => hc.2 hall), if_neg (by norm_num)]

/-- C9, witness: the amended statement on a non-silent and on a silent
one-sample file at 10 Hz. -/
theorem repairAudio_silence_padding_witness :
    repairAudio ⟨10, [[1]]⟩ 1 = ⟨10, [List.replicate (⌊(10 : ℚ) * 1⌋).toNat 0 ++ [1]]⟩ ∧
    repairAudio ⟨10, [[0]]⟩ 1 = ⟨10, [[0]]⟩ := by
  refine ⟨(repairAudio_silence_padding 10 [1] 1).1 ⟨1, by decide, by norm_num [repairTol]⟩,
    (repairAudio_silence_padding 10 [0] 1).2 ?_⟩
  intro s hs
  have : s = 0 := by
    have h10 : (10 : ℕ) / 10 = 1 := by decide
    rw [h10] at hs
    simpa using hs
  rw [this]
  norm_num [repairTol]

/-! ## Claims about latency detection (C5) -/

theorem sumSq_nonneg (l : List ℚ) : 0 ≤ sumSq l := by
  refine List.sum_nonneg ?_
  intro x hx
  obtain ⟨s, -, rfl⟩ := List.mem_map.mp hx
  exact mul_self_nonneg s

theorem foldl_max_abs_nonneg (t : List ℚ) (b : ℚ) (hb : 0 ≤ b) :
    0 ≤ t.foldl (fun m s => max m |s|) b := by
  induction t generalizing b with
  | nil => exact hb
  | cons c u ih => exact ih (max b |c|) (le_trans hb (le_max_left b |c|))

theorem maxAbs_nonneg (l : List ℚ) : 0 ≤ maxAbs l := by
  cases l with
  | nil => exact le_refl 0
  | cons a t => exact foldl_max_abs_nonneg t |a| (abs_nonneg a)

/-- C5, counterexample: a pair of zero-frame WAV files is decodable
(`sf.read` returns empty arrays without error) and has matching sample
rates, yet the endpoint returns no numeric result: with the common
truncated length zero, `np.correlate` raises `ValueError` and the
exception escapes the handler, refuting "otherwise it truncates both
signals … and reports latencySamples = max(0, argmax_index − (n − 1))"
for this pair. -/
theorem empty_pair_detection_raises :
    detect_latency ([] : List ℚ) ([] : List ℚ) 48000 48000 =
      .raised "ValueError: v cannot be empty" ∧
    ∀ r, detect_latency ([] : List ℚ) ([] : List ℚ) 48000 48000 ≠ .ok r := by
  refine ⟨rfl, ?_⟩
  intro r h
  rw [show detect_latency ([] : List ℚ) ([] : List ℚ) 48000 48000 =
    .raised "ValueError: v cannot be empty" from rfl] at h
  exact DetectOutcome.noConfusion h

/-- C5, amended: latency detection rejects mismatched sample rates with a
validation error and never a numeric result for them; with matching rates,
a zero-frame pair (either decodable file empty, so the common truncated
length is zero) makes the computation raise — again no numeric result;
otherwise (non-empty pair) it truncates both signals to the common length
`n`, removes each signal's mean, takes the full cross-correlation of
`(output, input)`, reports
`latencySamples = max 0 (argmax |corr| - (n-1))` (hence non-negative),
converts it to milliseconds with the shared rate, and the reported
confidence — `max 0 (min 1 (peak / norm))` with the normalizer `norm`
defaulting to 1 exactly when the product of the squared L2 norms is zero —
lies in `[0, 1]`.  The rate hypothesis scopes the statement to decodable
inputs (positive sample rate), where the embedding matches the code. -/
theorem detect_latency_spec (x₀ y₀ : List ℚ) (srx sry : ℕ) (_hsr : 0 < srx) :
    (srx ≠ sry →
      detect_latency x₀ y₀ srx sry =
        .validationError ("Sample rates differ: input=" ++ toString srx ++
          ", output=" ++ toString sry) ∧
      ∀ r, detect_latency x₀ y₀ srx sry ≠ .ok r) ∧
    (min x₀.length y₀.length = 0 →
      detect_latency x₀ y₀ srx srx = .raised "ValueError: v cannot be empty" ∧
      ∀ r, detect_latency x₀ y₀ srx srx ≠ .ok r) ∧
    (0 < min x₀.length y₀.length →
      detect_latency x₀ y₀ srx srx = .ok (detectOk x₀ y₀ srx) ∧
      (detectOk x₀ y₀ srx).latencySamples =
        max 0 ((argmaxAbs (xcorrFull (demean (y₀.take (min x₀.length y₀.length)))
            (demean (x₀.take (min x₀.length y₀.length)))
            (min x₀.length y₀.length)) : ℤ) -
          (((min x₀.length y₀.length : ℕ) : ℤ) - 1)) ∧
      0 ≤ (detectOk x₀ y₀ srx).latencySamples ∧
      (detectOk x₀ y₀ srx).latencyMs =
        ((detectOk x₀ y₀ srx).latencySamples : ℚ) / (srx : ℚ) * 1000 ∧
      (detectOk x₀ y₀ srx).peakAbs =
        maxAbs (xcorrFull (demean (y₀.take (min x₀.length y₀.length)))
          (demean (x₀.take (min x₀.length y₀.length))) (min x₀.length y₀.length)) ∧
      0 ≤ (detectOk x₀ y₀ srx).peakAbs ∧
      (detectOk x₀ y₀ srx).sumSqX =
        sumSq (demean (x₀.take (min x₀.length y₀.length))) ∧
      (detectOk x₀ y₀ srx).sumSqY =
        sumSq (demean (y₀.take (min x₀.length y₀.length))) ∧
      (Real.sqrt ((detectOk x₀ y₀ srx).sumSqX : ℝ) *
          Real.sqrt ((detectOk x₀ y₀ srx).sumSqY : ℝ) = 0 ↔
        (detectOk x₀ y₀ srx).sumSqX * (detectOk x₀ y₀ srx).sumSqY = 0) ∧
      (0 : ℝ) ≤
        max 0 (min 1 (((detectOk x₀ y₀ srx).peakAbs : ℝ) /
          (if (detectOk x₀ y₀ srx).sumSqX * (detectOk x₀ y₀ srx).sumSqY = 0 then 1
           else Real.sqrt ((detectOk x₀ y₀ srx).sumSqX : ℝ) *
             Real.sqrt ((detectOk x₀ y₀ srx).sumSqY : ℝ)))) ∧
      max 0 (min 1 (((detectOk x₀ y₀ srx).peakAbs : ℝ) /
          (if (detectOk x₀ y₀ srx).sumSqX * (detectOk x₀ y₀ srx).sumSqY = 0 then 1
           else Real.sqrt ((detectOk x₀ y₀ srx).sumSqX : ℝ) *
             Real.sqrt ((detectOk x₀ y₀ srx).sumSqY : ℝ)))) ≤ 1) := by
  refine ⟨?_, ?_, ?_⟩
  · intro h
    refine ⟨by simp [detect_latency, h], ?_⟩
    intro r hr
    simp [detect_latency, h] at hr
  · intro h0
    refine ⟨by simp [detect_latency, h0], ?_⟩
    intro r hr
    simp [detect_latency, h0] at hr
  · intro hn
    have h0 : ¬ min x₀.length y₀.length = 0 := Nat.pos_iff_ne_zero.mp hn
    refine ⟨by simp [detect_latency, h0], rfl, le_max_left 0 _, rfl, rfl,
      maxAbs_nonneg _, rfl, rfl, ?_,
      le_max_left 0 _, max_le zero_le_one (min_le_left 1 _)⟩
    have hx := sumSq_nonneg (demean (x₀.take (min x₀.length y₀.length)))
    have hy := sumSq_nonneg (demean (y₀.take (min x₀.length y₀.length)))
    constructor
    · intro h
      rcases mul_eq_zero.mp h with h' | h'
      · have : ((detectOk x₀ y₀ srx).sumSqX : ℝ) = 0 := by
          have := (Real.sqrt_eq_zero (by exact_mod_cast hx)).mp h'
          exact this
        have hq : (detectOk x₀ y₀ srx).sumSqX = 0 := by exact_mod_cast this
        rw [hq, zero_mul]
      · have : ((detectOk x₀ y₀ srx).sumSqY : ℝ) = 0 := by
          have := (Real.sqrt_eq_zero (by exact_mod_cast hy)).mp h'
          exact this
        have hq : (detectOk x₀ y₀ srx).sumSqY = 0 := by exact_mod_cast this
        rw [hq, mul_zero]
    · intro h
      rcases mul_eq_zero.mp h with h' | h'
      · rw [show ((detectOk x₀ y₀ srx).sumSqX : ℝ) = 0 by exact_mod_cast h',
          Real.sqrt_zero, zero_mul]
      · rw [show ((detectOk x₀ y₀ srx).sumSqY : ℝ) = 0 by exact_mod_cast h',
          Real.sqrt_zero, mul_zero]

/-- C5, witness: the amended statement at a concrete one-sample-delayed
pair at 48 kHz, a concrete half-empty pair, and a concrete rate mismatch. -/
theorem detect_latency_spec_witness :
    detect_latency [1, 0, 0] [0, 1, 0] 48000 48000 =
      .ok (detectOk [1, 0, 0] [0, 1, 0] 48000) ∧
    0 ≤ (detectOk [1, 0, 0] [0, 1, 0] 48000).latencySamples ∧
    detect_latency ([0] : List ℚ) ([] : List ℚ) 48000 48000 =
      .raised "ValueError: v cannot be empty" ∧
    detect_latency [1, 0, 0] [0, 1, 0] 48000 44100 =
      .validationError ("Sample rates differ: input=" ++ toString 48000 ++
        ", output=" ++ toString 44100) := by
  have H := detect_latency_spec [1, 0, 0] [0, 1, 0] 48000 48000 (by decide)
  have H0 := detect_latency_spec ([0] : List ℚ) ([] : List ℚ) 48000 48000 (by decide)
  have H' := detect_latency_spec [1, 0, 0] [0, 1, 0] 48000 44100 (by decide)
  exact ⟨(H.2.2 (by decide)).1, (H.2.2 (by decide)).2.2.1, (H0.2.1 (by decide)).1,
    (H'.1 (by decide)).1⟩

/-! ## Claims about routing (C10) -/

/-- The two store-backed handlers for `GET /api/training-runs` and
`GET /api/training-runs/{run_id}` can never be dispatched: the stub
handlers in `main.py` are registered first with the same method and path
templates, and Starlette serves the first full match. -/
theorem dispatch_not_store (m : String) (p : List String) :
    dispatch appRoutes m p ≠ some Handler.storeDetail ∧
    dispatch appRoutes m p ≠ some Handler.storeList := by
  unfold dispatch appRoutes
  by_cases h1 : routeMatches m p ⟨"GET", [Seg.lit "health"], Handler.health⟩ = true
  · rw [List.find?_cons_of_pos _ h1]
    exact ⟨by simp, by simp⟩
  rw [List.find?_cons_of_neg _ h1]
  by_cases h2 : routeMatches m p
      ⟨"GET", [Seg.lit "api", Seg.lit "training-runs"], Handler.stubList⟩ = true
  · rw [List.find?_cons_of_pos _ h2]
    exact ⟨by simp, by simp⟩
  rw [List.find?_cons_of_neg _ h2]
  by_cases h3 : routeMatches m p
      ⟨"GET", [Seg.lit "api", Seg.lit "training-runs", Seg.param],
        Handler.stubDetail⟩ = true
  · rw [List.find?_cons_of_pos _ h3]
    exact ⟨by simp, by simp⟩
  rw [List.find?_cons_of_neg _ h3]
  by_cases h4 : routeMatches m p
      ⟨"POST", [Seg.lit "api", Seg.lit "training-runs", Seg.param, Seg.lit "stop"],
        Handler.stubStop⟩ = true
  · rw [List.find?_cons_of_pos _ h4]
    exact ⟨by simp, by simp⟩
  rw [List.find?_cons_of_neg _ h4]
  by_cases h5 : routeMatches m p
      ⟨"POST", [Seg.lit "api", Seg.lit "files"], Handler.filesUpload⟩ = true
  · rw [List.find?_cons_of_pos _ h5]
    exact ⟨by simp, by simp⟩
  rw [List.find?_cons_of_neg _ h5]
  by_cases h6 : routeMatches m p
      ⟨"GET", [Seg.lit "api", Seg.lit "files", Seg.param, Seg.lit "inspect"],
        Handler.filesInspect⟩ = true
  · rw [List.find?_cons_of_pos _ h6]
    exact ⟨by simp, by simp⟩
  rw [List.find?_cons_of_neg _ h6]
  by_cases h7 : routeMatches m p
      ⟨"POST", [Seg.lit "api", Seg.lit "files", Seg.lit "detect-latency"],
        Handler.filesDetectLatency⟩ = true
  · rw [List.find?_cons_of_pos _ h7]
    exact ⟨by simp, by simp⟩
  rw [List.find?_cons_of_neg _ h7]
  by_cases h8 : routeMatches m p
      ⟨"POST", [Seg.lit "api", Seg.lit "training-runs"], Handler.storeCreate⟩ = true
  · rw [List.find?_cons_of_pos _ h8]
    exact ⟨by simp, by simp⟩
  rw [List.find?_cons_of_neg _ h8]
  -- the store detail route repeats the stub detail route's method and
  -- template, so its condition is the one already refuted as h3
  have h9 : routeMatches m p
      ⟨"GET", [Seg.lit "api", Seg.lit "training-runs", Seg.param],
        Handler.storeDetail⟩ = true → False := h3
  rw [List.find?_cons_of_neg _ h9]
  have h10 : routeMatches m p
      ⟨"GET", [Seg.lit "api", Seg.lit "training-runs"], Handler.storeList⟩ = true →
        False := h2
  rw [List.find?_cons_of_neg _ h10]
  by_cases h11 : routeMatches m p
      ⟨"GET", [Seg.lit "api", Seg.lit "training-runs", Seg.param,
        Seg.lit "nam-metadata"], Handler.storeNamMetadataGet⟩ = true
  · rw [List.find?_cons_of_pos _ h11]
    exact ⟨by simp, by simp⟩
  rw [List.find?_cons_of_neg _ h11]
  by_cases h12 : routeMatches m p
      ⟨"PUT", [Seg.lit "api", Seg.lit "training-runs", Seg.param,
        Seg.lit "nam-metadata"], Handler.storeNamMetadataPut⟩ = true
  · rw [List.find?_cons_of_pos _ h12]
    exact ⟨by simp, by simp⟩
  rw [List.find?_cons_of_neg _ h12]
  by_cases h13 : routeMatches m p
      ⟨"GET", [Seg.lit "api", Seg.lit "training-runs", Seg.param,
        Seg.lit "metrics"], Handler.storeMetrics⟩ = true
  · rw [List.find?_cons_of_pos _ h13]
    exact ⟨by simp, by simp⟩
  rw [List.find?_cons_of_neg _ h13]
  by_cases h14 : routeMatches m p
      ⟨"GET", [Seg.lit "api", Seg.lit "training-runs", Seg.param,
        Seg.lit "model"], Handler.storeModel⟩ = true
  · rw [List.find?_cons_of_pos _ h14]
    exact ⟨by simp, by simp⟩
  rw [List.find?_cons_of_neg _ h14]
  exact ⟨by simp, by simp⟩

/-- C10, confirmed: `main.py` registers the stub list/detail handlers
before including the training router under the same `/api` prefix, so
`GET /api/training-runs` is always served by the stub list (two hardcoded
example runs) and `GET /api/training-runs/{run_id}` by
`build_stub_run(run_id)` — whose status is always COMPLETED with hardcoded
metrics — for every run identifier; the store-backed handlers for those two
paths are never dispatched.  The stub handlers are functions of the clock
and the path parameter alone, so the Run Store's contents cannot influence
them. -/
theorem stub_routes_shadow_store (rid : String) (hrid : rid ≠ "") (now : ℚ) :
    dispatch appRoutes "GET" ["api", "training-runs"] = some Handler.stubList ∧
    dispatch appRoutes "GET" ["api", "training-runs", rid] = some Handler.stubDetail ∧
    (∀ m p, dispatch appRoutes m p ≠ some Handler.storeDetail) ∧
    (∀ m p, dispatch appRoutes m p ≠ some Handler.storeList) ∧
    (build_stub_run now rid).status = "COMPLETED" ∧
    (build_stub_run now rid).metrics = stubMetrics ∧
    (build_stub_run now rid).id = rid ∧
    list_training_runs_stub now =
      [⟨"run_example_1", "Recto Snapshot", "COMPLETED", now - 1200⟩,
       ⟨"run_example_2", "Clean Twin", "RUNNING", now - 300⟩] ∧
    (list_training_runs_stub now).length = 2 := by
  refine ⟨by decide, ?_, fun m p => (dispatch_not_store m p).1,
    fun m p => (dispatch_not_store m p).2, rfl, rfl, rfl, rfl, rfl⟩
  unfold dispatch appRoutes
  rw [List.find?_cons_of_neg _ (show
    ¬ routeMatches "GET" ["api", "training-runs", rid]
      ⟨"GET", [Seg.lit "health"], Handler.health⟩ = true by
    simp [routeMatches, pathMatch, segMatch])]
  rw [List.find?_cons_of_neg _ (show
    ¬ routeMatches "GET" ["api", "training-runs", rid]
      ⟨"GET", [Seg.lit "api", Seg.lit "training-runs"], Handler.stubList⟩ = true by
    simp [routeMatches, pathMatch, segMatch])]
  rw [List.find?_cons_of_pos _ (by
    simp [routeMatches, pathMatch, segMatch, hrid] :
      routeMatches "GET" ["api", "training-runs", rid]
        ⟨"GET", [Seg.lit "api", Seg.lit "training-runs", Seg.param],
          Handler.stubDetail⟩ = true)]
  rfl

/-- C10, witness: the theorem at a concrete run identifier and clock. -/
theorem stub_routes_shadow_store_witness :
    dispatch appRoutes "GET" ["api", "training-runs", "abc"] = some Handler.stubDetail ∧
    (build_stub_run 0 "abc").status = "COMPLETED" ∧
    dispatch appRoutes "GET" ["api", "training-runs"] = some Handler.stubList := by
  have H := stub_routes_shadow_store "abc" (by decide) 0
  exact ⟨H.2.1, H.2.2.2.2.1, H.1⟩

end NamBackend
